import Mathlib

/-!
Verification development for the X11 shared-clipboard backend
(src/VBox/GuestHost/SharedClipboard/x11-clipboard.cpp).

The code is shallowly embedded: byte strings and UTF-16 strings are
lists of natural numbers (code units), machine structures become Lean
structures, and the event-thread worker functions become explicit
state-transformers.  Functions of the IPRT runtime and of the
clipboard helper library whose sources are not part of this repository
(the vboxClipboardUtf16* line-ending helpers and the RTUtf16/RTStr
Unicode conversions) are modelled from the specification, with their
observable behaviour pinned by the expectations of the testcase that
lives in the same source file.
-/

set_option linter.unusedVariables false

/-! ## Byte/code-unit list utilities -/

/-- Carriage return code unit. -/
def CARRIAGERETURN : Nat := 13

/-- Linefeed code unit. -/
def LINEFEED : Nat := 10

/-- Take the longest prefix before a NUL code unit; this models how the
C string functions treat an explicit length together with an embedded
terminator. -/
def takeUntilNul : List Nat → List Nat
  | [] => []
  | c :: rest => if c = 0 then [] else c :: takeUntilNul rest

/-- Collapse CRLF pairs to a lone LF, scanning left to right and leaving
unpaired CRs alone (so CRCRLF becomes CRLF and CRLFCR becomes LFCR).
This is the Windows-to-Unix line-ending conversion performed by the
clipboard helper. -/
def crlfToLf : List Nat → List Nat
  | [] => []
  | [c] => [c]
  | c :: d :: rest =>
    if c = 13 ∧ d = 10 then 10 :: crlfToLf rest
    else c :: crlfToLf (d :: rest)

/-- Expand every LF to a CRLF pair, including an LF that already follows
a CR (so an existing CRLF becomes CRCRLF).  This is the Unix-to-Windows
line-ending conversion performed by the clipboard helper and by
clipLatin1ToWinTxt; the in-repository testcase pins this behaviour
(an input containing CRLF is expected to produce CRCRLF). -/
def lfToCrLf : List Nat → List Nat
  | [] => []
  | c :: rest => if c = 10 then 13 :: 10 :: lfToCrLf rest else c :: lfToCrLf rest

/-- The LF-to-CRLF expansion in the words of the specification: LF
becomes CRLF but an existing CRLF pair is left intact.  Used only to
state the spec claim that the code refutes. -/
def specLfToCrLf : List Nat → List Nat
  | [] => []
  | [c] => if c = 10 then [13, 10] else [c]
  | c :: d :: rest =>
    if c = 13 ∧ d = 10 then 13 :: 10 :: specLfToCrLf rest
    else if c = 10 then 13 :: 10 :: specLfToCrLf (d :: rest)
    else c :: specLfToCrLf (d :: rest)

/-- A string follows strict CRLF conventions when every CR is
immediately followed by LF and every LF is immediately preceded by CR. -/
def isCrlfConv : List Nat → Bool
  | [] => true
  | [c] => decide (c ≠ 13 ∧ c ≠ 10)
  | c :: d :: rest =>
    if c = 13 then (if d = 10 then isCrlfConv rest else false)
    else if c = 10 then false
    else isCrlfConv (d :: rest)

theorem takeUntilNul_eq_self : ∀ {l : List Nat}, (∀ c ∈ l, c ≠ 0) → takeUntilNul l = l
  | [], _ => rfl
  | c :: rest, h => by
    have hc : c ≠ 0 := h c (by simp)
    simp only [takeUntilNul, if_neg hc]
    exact congrArg (c :: ·) (takeUntilNul_eq_self fun x hx => h x (by simp [hx]))

theorem takeUntilNul_append_nul {l t : List Nat} (h : ∀ c ∈ l, c ≠ 0) :
    takeUntilNul (l ++ 0 :: t) = l := by
  induction l with
  | nil => simp [takeUntilNul]
  | cons c rest ih =>
    have hc : c ≠ 0 := h c (by simp)
    simp only [List.cons_append, takeUntilNul, if_neg hc]
    exact congrArg (c :: ·) (ih fun x hx => h x (by simp [hx]))

theorem crlfToLf_mem : ∀ {l : List Nat} {c : Nat}, c ∈ crlfToLf l → c ∈ l
  | [], c, h => by simp [crlfToLf] at h
  | [d], c, h => by simpa [crlfToLf] using h
  | a :: b :: rest, c, h => by
    by_cases hab : a = 13 ∧ b = 10
    · rw [crlfToLf, if_pos hab] at h
      rcases List.mem_cons.mp h with h10 | h'
      · simp [h10, hab.2]
      · exact List.mem_cons_of_mem _ (List.mem_cons_of_mem _ (crlfToLf_mem h'))
    · rw [crlfToLf, if_neg hab] at h
      rcases List.mem_cons.mp h with ha | h'
      · simp [ha]
      · exact List.mem_cons_of_mem _ (crlfToLf_mem h')

theorem lfToCrLf_crlfToLf : ∀ l : List Nat, isCrlfConv l = true →
    lfToCrLf (crlfToLf l) = l
  | [], _ => rfl
  | [c], h => by
    have hc : c ≠ 13 ∧ c ≠ 10 := by simpa [isCrlfConv] using h
    simp [crlfToLf, lfToCrLf, hc.2]
  | c :: d :: rest, h => by
    by_cases hc13 : c = 13
    · subst hc13
      have hd : d = 10 ∧ isCrlfConv rest = true := by
        by_cases hd10 : d = 10
        · exact ⟨hd10, by simpa [isCrlfConv, hd10] using h⟩
        · exfalso; simpa [isCrlfConv, hd10] using h
      rcases hd with ⟨hd10, hrest⟩
      subst hd10
      rw [crlfToLf, if_pos ⟨rfl, rfl⟩]
      rw [lfToCrLf, if_pos rfl]
      rw [lfToCrLf_crlfToLf rest hrest]
    · by_cases hc10 : c = 10
      · exfalso; simpa [isCrlfConv, hc13, hc10] using h
      · have hrest : isCrlfConv (d :: rest) = true := by
          simpa [isCrlfConv, hc13, hc10] using h
        rw [crlfToLf, if_neg (by tauto)]
        rw [lfToCrLf, if_neg hc10]
        rw [lfToCrLf_crlfToLf (d :: rest) hrest]

/-! ## UTF-8 encoding (model of the IPRT Unicode conversions)

Modelled from the spec: the sources of RTUtf16ToUtf8Ex and
RTStrToUtf16Ex are not part of this repository; the specification only
says they convert between 16-bit code units and UTF-8.  We model the
standard UTF-8 encoding of the Basic Multilingual Plane (one 16-bit
code unit per character); surrogate halves and overlong or malformed
byte sequences are rejected by the decoder. -/

/-- Encode one BMP scalar value as UTF-8 bytes. -/
def utf8EncodeChar (c : Nat) : List Nat :=
  if c < 0x80 then [c]
  else if c < 0x800 then [0xC0 + c / 64, 0x80 + c % 64]
  else [0xE0 + c / 4096, 0x80 + c / 64 % 64, 0x80 + c % 64]

/-- Encode a list of BMP scalar values as UTF-8 bytes. -/
def utf8Encode : List Nat → List Nat
  | [] => []
  | c :: rest => utf8EncodeChar c ++ utf8Encode rest

/-- Decode the continuation of a two-byte UTF-8 sequence whose lead
byte is b. -/
def utf8Dec2 (b : Nat) : List Nat → Option (Nat × List Nat)
  | [] => none
  | b2 :: rest2 =>
    if 0x80 ≤ b2 ∧ b2 < 0xC0 then
      if (b - 0xC0) * 64 + (b2 - 0x80) < 0x80 then none
      else some ((b - 0xC0) * 64 + (b2 - 0x80), rest2)
    else none

/-- Decode the continuation of a three-byte UTF-8 sequence whose lead
byte is b, rejecting overlong and surrogate encodings. -/
def utf8Dec3 (b : Nat) : List Nat → Option (Nat × List Nat)
  | [] => none
  | [_] => none
  | b2 :: b3 :: rest3 =>
    if (0x80 ≤ b2 ∧ b2 < 0xC0) ∧ (0x80 ≤ b3 ∧ b3 < 0xC0) then
      if (b - 0xE0) * 4096 + (b2 - 0x80) * 64 + (b3 - 0x80) < 0x800 then none
      else if 0xD800 ≤ (b - 0xE0) * 4096 + (b2 - 0x80) * 64 + (b3 - 0x80) ∧
          (b - 0xE0) * 4096 + (b2 - 0x80) * 64 + (b3 - 0x80) < 0xE000 then none
      else some ((b - 0xE0) * 4096 + (b2 - 0x80) * 64 + (b3 - 0x80), rest3)
    else none

/-- Decode one UTF-8 character at the head of a byte list, rejecting
malformed, overlong and surrogate sequences; returns the scalar value
and the remaining bytes. -/
def utf8DecodeChar : List Nat → Option (Nat × List Nat)
  | [] => none
  | b :: rest =>
    if b < 0x80 then some (b, rest)
    else if b < 0xC0 then none
    else if b < 0xE0 then utf8Dec2 b rest
    else if b < 0xF0 then utf8Dec3 b rest
    else none

/-- Worker for the byte-list decoder; the fuel argument is a bound on
the number of characters still to be decoded.  Since every character
consumes at least one byte, fuel equal to the byte count never runs
out. -/
def utf8DecodeAux : Nat → List Nat → Option (List Nat)
  | _, [] => some []
  | 0, _ :: _ => none
  | fuel + 1, b :: rest =>
    match utf8DecodeChar (b :: rest) with
    | none => none
    | some (c, rest') => (utf8DecodeAux fuel rest').map (c :: ·)

/-- Decode a UTF-8 byte list to BMP scalar values, rejecting malformed,
overlong and surrogate sequences (the IPRT conversions validate their
input). -/
def utf8Decode (l : List Nat) : Option (List Nat) :=
  utf8DecodeAux l.length l

/-- A 16-bit code unit the BMP model can encode: any non-surrogate
scalar value below 0x10000. -/
def validBmp (c : Nat) : Prop := c < 0x10000 ∧ ¬(0xD800 ≤ c ∧ c < 0xE000)

instance (c : Nat) : Decidable (validBmp c) := by unfold validBmp; infer_instance

theorem utf8DecodeChar_encode {c : Nat} (hc : validBmp c) (rest : List Nat) :
    utf8DecodeChar (utf8EncodeChar c ++ rest) = some (c, rest) := by
  rcases hc with ⟨hlt, hsur⟩
  by_cases h1 : c < 0x80
  · rw [utf8EncodeChar, if_pos h1, List.cons_append, List.nil_append]
    simp only [utf8DecodeChar]
    rw [if_pos h1]
  · by_cases h2 : c < 0x800
    · rw [utf8EncodeChar, if_neg h1, if_pos h2]
      simp only [List.cons_append, List.nil_append, utf8DecodeChar]
      rw [if_neg (by omega), if_neg (by omega), if_pos (by omega)]
      simp only [utf8Dec2]
      rw [if_pos (by omega), if_neg (by omega)]
      have hval : (0xC0 + c / 64 - 0xC0) * 64 + (0x80 + c % 64 - 0x80) = c := by omega
      rw [hval]
    · rw [utf8EncodeChar, if_neg h1, if_neg h2]
      simp only [List.cons_append, List.nil_append, utf8DecodeChar]
      rw [if_neg (by omega), if_neg (by omega), if_neg (by omega), if_pos (by omega)]
      simp only [utf8Dec3]
      rw [if_pos (by omega), if_neg (by omega), if_neg (by omega)]
      have hval : (0xE0 + c / 4096 - 0xE0) * 4096 + (0x80 + c / 64 % 64 - 0x80) * 64
          + (0x80 + c % 64 - 0x80) = c := by omega
      rw [hval]

theorem utf8EncodeChar_length_pos (c : Nat) : 0 < (utf8EncodeChar c).length := by
  unfold utf8EncodeChar
  split
  · simp
  · split <;> simp

theorem utf8DecodeAux_encode : ∀ (fuel : Nat) (l : List Nat),
    (∀ c ∈ l, validBmp c) → (utf8Encode l).length ≤ fuel →
    utf8DecodeAux fuel (utf8Encode l) = some l := by
  intro fuel
  induction fuel with
  | zero =>
    intro l hv hlen
    match l with
    | [] => rfl
    | c :: rest =>
      exfalso
      rw [utf8Encode, List.length_append] at hlen
      have := utf8EncodeChar_length_pos c
      omega
  | succ fuel ih =>
    intro l hv hlen
    match l with
    | [] => rfl
    | c :: rest =>
      have hc : validBmp c := hv c (by simp)
      obtain ⟨b, bs, hE⟩ :=
        List.exists_cons_of_ne_nil (List.ne_nil_of_length_pos (utf8EncodeChar_length_pos c))
      have hstep := utf8DecodeChar_encode hc (utf8Encode rest)
      rw [hE, List.cons_append] at hstep
      have hlen' : (utf8Encode rest).length ≤ fuel := by
        rw [utf8Encode, List.length_append, hE] at hlen
        simp only [List.length_cons] at hlen
        omega
      have hrest := ih rest (fun x hx => hv x (by simp [hx])) hlen'
      rw [utf8Encode, hE, List.cons_append]
      simp only [utf8DecodeAux, hstep, hrest]
      rfl

theorem utf8Decode_encode {l : List Nat} (h : ∀ c ∈ l, validBmp c) :
    utf8Decode (utf8Encode l) = some l := by
  unfold utf8Decode
  exact utf8DecodeAux_encode _ _ h le_rfl

theorem utf8Encode_ascii : ∀ {l : List Nat}, (∀ c ∈ l, c < 0x80) →
    utf8Encode l = l
  | [], _ => rfl
  | c :: rest, h => by
    have hc : c < 0x80 := h c (by simp)
    rw [utf8Encode, utf8EncodeChar, if_pos hc, List.cons_append, List.nil_append]
    exact congrArg (c :: ·) (utf8Encode_ascii fun x hx => h x (by simp [hx]))

theorem utf8Decode_ascii {l : List Nat} (h : ∀ c ∈ l, c < 0x80) :
    utf8Decode l = some l := by
  have hv : ∀ c ∈ l, validBmp c := fun c hc => ⟨by have := h c hc; omega,
    by have := h c hc; omega⟩
  calc utf8Decode l = utf8Decode (utf8Encode l) := by rw [utf8Encode_ascii h]
    _ = some l := utf8Decode_encode hv

theorem utf8Encode_ne_zero : ∀ {l : List Nat}, (∀ c ∈ l, 0 < c) →
    ∀ b ∈ utf8Encode l, b ≠ 0 := by
  intro l
  induction l with
  | nil => intro _ b hb; simp [utf8Encode] at hb
  | cons c rest ih =>
    intro h b hb
    have hc : 0 < c := h c (by simp)
    rw [utf8Encode, List.mem_append] at hb
    rcases hb with hb | hb
    · rw [utf8EncodeChar] at hb
      split at hb
      · simp at hb; omega
      · split at hb <;> simp at hb <;> omega
    · exact ih (fun x hx => h x (by simp [hx])) b hb

/-! ## Status codes

IPRT status codes used by the clipboard backend, as an enumeration
(only their identities matter to the backend logic). -/

inductive VStatus where
  | VINF_SUCCESS
  | VERR_NO_DATA
  | VERR_TIMEOUT
  | VERR_TRY_AGAIN
  | VERR_NOT_IMPLEMENTED
  | VERR_NOT_SUPPORTED
  | VERR_NO_MEMORY
  | VERR_INVALID_PARAMETER
  | VERR_UNRESOLVED_ERROR
  | VERR_INVALID_UTF16
  | VERR_INVALID_UTF8
deriving DecidableEq, Repr

/-! ## Format table and atoms

The table g_aFormats maps X11 atom names to a CLIPFORMAT tag and a
VBox format mask.  CLIPFORMAT values follow the C enumeration:
INVALID = 0, TARGETS = 1, TEXT = 2, CTEXT = 3, UTF8 = 4.  Atoms are
interned exactly as the in-repository testcase stub XtConvertAndStore
does: table entry i gets atom 0x1000 + i, and the support atoms
PRIMARY, CLIPBOARD, TARGETS, MULTIPLE, TIMESTAMP get 0x2000 + j. -/

/-- The VBox Unicode-text format bit.  Modelled from the spec: the
header defining VBOX_SHARED_CLIPBOARD_FMT_UNICODETEXT is not in this
repository; the spec says the core uses only the Unicode-text bit of
the host format mask, so we fix it as bit 0. -/
def VBOX_FMT_UNICODETEXT : Nat := 1

/-- Entries of g_aFormats as (CLIPFORMAT tag, VBox format mask):
INVALID, UTF8_STRING, two text/plain;charset=UTF-8 variants, STRING,
TEXT, text/plain, COMPOUND_TEXT. -/
def gFormats : List (Nat × Nat) :=
  [(0, 0), (4, 1), (4, 1), (4, 1), (2, 1), (2, 1), (2, 1), (3, 1)]

/-- Atom corresponding to a table index (testcase interning scheme). -/
def clipAtomForX11Format (fmt : Nat) : Nat := 0x1000 + fmt

def aPRIMARY : Nat := 0x2000
def aCLIPBOARD : Nat := 0x2001
def aTARGETS : Nat := 0x2002
def aMULTIPLE : Nat := 0x2003
def aTIMESTAMP : Nat := 0x2004

/-- The X11 predefined ATOM atom. -/
def XA_ATOM : Nat := 4

/-- The Xt conversion-failure sentinel atom XT_CONVERT_FAIL. -/
def xtConvertFail : Nat := 0x80000001

/-- CLIPFORMAT tag of a table index (clipRealFormatForX11Format). -/
def clipRealFormatForX11Format (fmt : Nat) : Nat := (gFormats.getD fmt (0, 0)).1

/-- VBox format mask of a table index (clipVBoxFormatForX11Format). -/
def clipVBoxFormatForX11Format (fmt : Nat) : Nat := (gFormats.getD fmt (0, 0)).2

/-- Linear scan of the format table by atom; returns the table index or
NIL_CLIPX11FORMAT = 0 (clipFindX11FormatByAtom). -/
def clipFindX11FormatByAtom (atom : Nat) : Nat :=
  match (List.range 8).find? (fun i => clipAtomForX11Format i == atom) with
  | some i => i
  | none => 0

/-- Loop body of clipGetTextFormatFromTargets: best index and its
CLIPFORMAT tag are threaded through the scan. -/
def clipGetTextFormatFromTargetsAux : List Nat → Nat → Nat → Nat
  | [], best, _ => best
  | t :: rest, best, ebest =>
    let format := clipFindX11FormatByAtom t
    if format ≠ 0 ∧ clipVBoxFormatForX11Format format = VBOX_FMT_UNICODETEXT ∧
        ebest < clipRealFormatForX11Format format then
      clipGetTextFormatFromTargetsAux rest format (clipRealFormatForX11Format format)
    else
      clipGetTextFormatFromTargetsAux rest best ebest

/-- Scan a TARGETS reply for the best supported text format
(clipGetTextFormatFromTargets). -/
def clipGetTextFormatFromTargets (targets : List Nat) : Nat :=
  clipGetTextFormatFromTargetsAux targets 0 0

/-! ## Line-ending helpers of the clipboard helper library

Modelled from the spec: the sources of vboxClipboardUtf16GetLinSize,
vboxClipboardUtf16WinToLin, vboxClipboardUtf16GetWinSize and
vboxClipboardUtf16LinToWin are not in this repository.  The spec fixes
Windows-to-Unix as CRLF collapsing that preserves unpaired CRs, and
the in-repository testcase pins Unix-to-Windows as expanding every LF
(an input CRLF is expected to come back as CRCRLF).  The Lin-format
string produced by WinToLin carries a leading byte-order-mark unit:
the caller clipWinTxtToUtf8 converts starting at pwszTmp + 1, and the
testcase expects the full string (not one character short), so the
first unit must be a marker. -/

def vboxClipboardUtf16GetLinSize (src : List Nat) (cwSrc : Nat) : Nat :=
  if cwSrc = 0 then 0
  else (crlfToLf (takeUntilNul (src.take cwSrc))).length + 2

def vboxClipboardUtf16WinToLin (src : List Nat) (cwSrc : Nat) : List Nat :=
  0xFEFF :: (crlfToLf (takeUntilNul (src.take cwSrc)) ++ [0])

def vboxClipboardUtf16GetWinSize (src : List Nat) (cwSrc : Nat) : Nat :=
  (lfToCrLf (takeUntilNul (src.take cwSrc))).length + 1

def vboxClipboardUtf16LinToWin (src : List Nat) (cwSrc : Nat) : List Nat :=
  lfToCrLf (takeUntilNul (src.take cwSrc)) ++ [0]

/-- Model of RTUtf16ToUtf8Ex restricted to the BMP: stop at a NUL unit,
validate, and encode as UTF-8 (modelled from the spec). -/
def rtUtf16ToUtf8 (l : List Nat) : Option (List Nat) :=
  if ∀ c ∈ takeUntilNul l, validBmp c then some (utf8Encode (takeUntilNul l))
  else none

/-- Model of RTStrToUtf16Ex restricted to the BMP: stop at a NUL byte,
validate and decode the UTF-8 (modelled from the spec). -/
def rtStrToUtf16 (l : List Nat) : Option (List Nat) :=
  utf8Decode (takeUntilNul l)

/-! ## Transcoding functions of the backend -/

/-- Convert text from Windows format (UCS-2, CRLF line endings) to
Utf-8 (clipWinTxtToUtf8).  Returns the buffer contents together with
the reported size pcbActual (converted size plus terminator). -/
def clipWinTxtToUtf8 (src : List Nat) (cbSrc : Nat) : Except VStatus (List Nat × Nat) :=
  let cwSrc := cbSrc / 2
  let cwTmp := vboxClipboardUtf16GetLinSize src cwSrc
  if cwTmp = 0 then .error .VERR_NO_DATA
  else
    let tmp := vboxClipboardUtf16WinToLin src cwSrc
    match rtUtf16ToUtf8 ((tmp.drop 1).take (cwTmp - 1)) with
    | none => .error .VERR_INVALID_UTF16
    | some bytes => .ok (bytes ++ [0], bytes.length + 1)

/-- Massage Utf16 with Unix end-of-lines into the Windows format
(clipUtf16ToWinTxt).  cwcSrc counts the source elements without the
terminating zero; the source buffer is read over cwcSrc + 1 units as
in the C code. -/
def clipUtf16ToWinTxt (src : List Nat) (cwcSrc : Nat) : Except VStatus (List Nat × Nat) :=
  let cwcDest := vboxClipboardUtf16GetWinSize src (cwcSrc + 1)
  .ok (vboxClipboardUtf16LinToWin src (cwcSrc + 1), 2 * cwcDest)

/-- Convert Utf-8 text into Utf-16 as Windows expects it
(clipUtf8ToWinTxt): an intermediate conversion to UTF-16 followed by
clipUtf16ToWinTxt. -/
def clipUtf8ToWinTxt (src : List Nat) (cbSrc : Nat) : Except VStatus (List Nat × Nat) :=
  match rtStrToUtf16 (src.take cbSrc) with
  | none => .error .VERR_INVALID_UTF8
  | some units => clipUtf16ToWinTxt units units.length

/-- Convert COMPOUND TEXT into Windows Utf-16 (clipCTextToWinTxt).  The
compound-to-locale conversion XmbTextPropertyToTextList follows the
in-repository testcase stub (identity on ASCII, XConverterNotFound on
anything else, NUL-terminating the copy), and RTStrCurrentCPToUtf8 is
modelled as the identity on the resulting C string. -/
def clipCTextToWinTxt (src : List Nat) (cbSrc : Nat) : Except VStatus (List Nat × Nat) :=
  if cbSrc = 0 then .ok ([0], 2)
  else
    let prop := src.take cbSrc
    if ∀ b ∈ prop, b < 0x80 then
      let pszTmp := takeUntilNul prop
      clipUtf8ToWinTxt pszTmp pszTmp.length
    else .error .VERR_NOT_SUPPORTED

/-- Convert Latin-1 text into Windows Utf-16 (clipLatin1ToWinTxt).  The
size computation stops at an embedded NUL but the copy loop runs over
all cbSrc bytes, so the defined buffer contents are the first
cwcDest - 1 written units followed by the forced terminator. -/
def clipLatin1ToWinTxt (src : List Nat) (cbSrc : Nat) : List Nat × Nat :=
  let bytes := src.take cbSrc
  let cwcDest := (lfToCrLf (takeUntilNul bytes)).length + 1
  let writes := lfToCrLf bytes
  (writes.take (cwcDest - 1) ++ [0], 2 * cwcDest)

/-- Remove a trailing NUL from a buffer by shortening the reported
length (clipTrimTrailingNul). -/
def clipTrimTrailingNul (data : List Nat) (len : Nat) : Nat :=
  if data.getD (len - 1) 1 = 0 then len - 1 else len

/-- Convert Windows text to Utf-8 for an X11 requestor
(clipWinTxtToUtf8ForX11CB); reply type is the requested target and the
bit format is 8. -/
def clipWinTxtToUtf8ForX11CB (pv : List Nat) (cbSrc : Nat) : Except VStatus (List Nat × Nat) :=
  clipWinTxtToUtf8 pv cbSrc

/-- Convert Windows text to COMPOUND_TEXT for an X11 requestor
(clipWinTxtToCTextForX11CB), via Utf-8, the current code page (modelled
as the identity) and the testcase stub of XmbTextListToTextProperty. -/
def clipWinTxtToCTextForX11CB (pv : List Nat) (cbSrc : Nat) : Except VStatus (List Nat × Nat) :=
  match clipWinTxtToUtf8 pv cbSrc with
  | .error e => .error e
  | .ok (buf, _) =>
    let pszTmp2 := takeUntilNul buf
    if ∀ b ∈ pszTmp2, b < 0x80 then .ok (pszTmp2 ++ [0], pszTmp2.length + 1)
    else .error .VERR_NOT_SUPPORTED

/-! ## Backend context state

The CLIPBACKEND structure, restricted to the fields the claims are
about, extended with observation logs for the frontend callbacks:
reported collects the masks passed to ClipReportX11Formats, completed
collects the (status, request, data) triples passed to
ClipCompleteDataRequestFromX11, and hostDataCalls counts invocations
of ClipRequestDataForX11.  Selection ownership is the testcase's
observable g_ownsSel, one flag per selection. -/

/-- An outstanding XtGetSelectionValue conversion: either a TARGETS
poll or a data fetch carrying the pending request record
(_CLIPREADX11CBREQ: requested VBox format, chosen text format, request
cookie). -/
inductive PendingConv where
  | targets : PendingConv
  | data : Nat → Nat → Nat → PendingConv
deriving DecidableEq, Repr

structure ClipCtx where
  fHaveX11 : Bool
  fBusy : Bool
  fUpdateNeeded : Bool
  x11TextFormat : Nat
  x11BitmapFormat : Nat
  vboxFormats : Nat
  ownsClipboard : Bool
  ownsPrimary : Bool
  pendingConv : Option PendingConv
  reported : List Nat
  completed : List (VStatus × Nat × List Nat)
  hostDataCalls : Nat
  cache : Option (List Nat)
deriving DecidableEq, Repr

/-- Record a ClipCompleteDataRequestFromX11 callback. -/
def clipComplete (s : ClipCtx) (rc : VStatus) (reqId : Nat) (d : List Nat) : ClipCtx :=
  {s with completed := (rc, reqId, d) :: s.completed}

/-- Report the formats currently offered by X11 to VBox
(clipReportFormatsToVBox). -/
def clipReportFormatsToVBox (s : ClipCtx) : ClipCtx :=
  {s with reported := clipVBoxFormatForX11Format s.x11TextFormat :: s.reported}

/-- Forget which formats were previously on the X11 clipboard
(clipResetX11Formats). -/
def clipResetX11Formats (s : ClipCtx) : ClipCtx :=
  {s with x11TextFormat := 0, x11BitmapFormat := 0}

/-- Tell VBox that X11 currently has nothing in its clipboard
(clipReportEmptyX11CB). -/
def clipReportEmptyX11CB (s : ClipCtx) : ClipCtx :=
  clipReportFormatsToVBox (clipResetX11Formats s)

/-- Choose the supported formats out of a TARGETS reply
(clipGetFormatsFromTargets); bitmap formats are not yet supported. -/
def clipGetFormatsFromTargets (s : ClipCtx) (targets : List Nat) : ClipCtx :=
  {s with x11TextFormat := clipGetTextFormatFromTargets targets, x11BitmapFormat := 0}

/-- Update the stored X11 target information and notify VBox
(clipUpdateX11Targets). -/
def clipUpdateX11Targets (s : ClipCtx) (targets : List Nat) : ClipCtx :=
  clipReportFormatsToVBox (clipGetFormatsFromTargets s targets)

/-- Request the targets the X11 clipboard offers
(clipQueryX11CBFormats): when busy, just remember that an update is
needed; otherwise become busy and issue a TARGETS conversion. -/
def clipQueryX11CBFormats (s : ClipCtx) : ClipCtx :=
  if s.fBusy then {s with fUpdateNeeded := true}
  else {s with fBusy := true, pendingConv := some .targets}

/-- An X11 selection reply as delivered to an XtGetSelectionValue
callback: the type atom, the value (none models a NULL pointer), the
element count and the bit format. -/
structure X11Reply where
  atomType : Nat
  value : Option (List Nat)
  count : Nat
  format : Nat
deriving DecidableEq, Repr

/-- Callback receiving the TARGETS list offered by X11
(clipConvertX11Targets). -/
def clipConvertX11Targets (s : ClipCtx) (r : X11Reply) : ClipCtx :=
  let s1 := {s with fBusy := false}
  if s1.fUpdateNeeded then clipQueryX11CBFormats {s1 with fUpdateNeeded := false}
  else if r.atomType = xtConvertFail ∨ r.value = none then clipReportEmptyX11CB s1
  else clipUpdateX11Targets s1 (r.value.getD [])

/-- Callback receiving converted selection data for a host request
(clipConvertX11CB); transcodes and completes the pending request. -/
def clipConvertX11CB (s : ClipCtx) (mFormat mTextFormat reqId : Nat)
    (r : X11Reply) : ClipCtx :=
  let cbSrc := r.count * r.format / 8
  let s1 := {s with fBusy := false}
  let s2 := if s1.fUpdateNeeded then clipQueryX11CBFormats s1 else s1
  match r.value with
  | none => clipComplete s2 .VERR_NO_DATA reqId []
  | some pvSrc =>
    if r.atomType = xtConvertFail then clipComplete s2 .VERR_TIMEOUT reqId []
    else if mFormat = VBOX_FMT_UNICODETEXT then
      match clipRealFormatForX11Format mTextFormat with
      | 3 =>
        match clipCTextToWinTxt pvSrc cbSrc with
        | .ok (d, _) => clipComplete s2 .VINF_SUCCESS reqId d
        | .error e => clipComplete s2 e reqId []
      | 4 =>
        if (utf8Decode (takeUntilNul (pvSrc.take cbSrc))).isSome then
          match clipUtf8ToWinTxt pvSrc cbSrc with
          | .ok (d, _) => clipComplete s2 .VINF_SUCCESS reqId d
          | .error e => clipComplete s2 e reqId []
        else clipComplete s2 .VINF_SUCCESS reqId (clipLatin1ToWinTxt pvSrc cbSrc).1
      | 2 =>
        if (utf8Decode (takeUntilNul (pvSrc.take cbSrc))).isSome then
          match clipUtf8ToWinTxt pvSrc cbSrc with
          | .ok (d, _) => clipComplete s2 .VINF_SUCCESS reqId d
          | .error e => clipComplete s2 e reqId []
        else clipComplete s2 .VINF_SUCCESS reqId (clipLatin1ToWinTxt pvSrc cbSrc).1
      | _ => clipComplete s2 .VERR_INVALID_PARAMETER reqId []
    else clipComplete s2 .VERR_NOT_IMPLEMENTED reqId []

/-- Worker for ClipRequestDataFromX11 running on the event thread
(vboxClipboardReadX11Worker). -/
def vboxClipboardReadX11Worker (s : ClipCtx) (mFormat reqId : Nat) : ClipCtx :=
  let fBusy := s.fBusy
  let s1 := {s with fBusy := true}
  if fBusy then clipComplete s1 .VERR_TRY_AGAIN reqId []
  else if mFormat = VBOX_FMT_UNICODETEXT then
    let mTextFormat := s1.x11TextFormat
    if mTextFormat = 0 then clipComplete s1 .VERR_NO_DATA reqId []
    else {s1 with pendingConv := some (.data mFormat mTextFormat reqId)}
  else clipComplete s1 .VERR_NOT_IMPLEMENTED reqId []

/-- Invalidate the cached VBox clipboard data
(clipInvalidateVBoxCBCache). -/
def clipInvalidateVBoxCBCache (s : ClipCtx) : ClipCtx :=
  {s with cache := none}

/-- Take possession of the CLIPBOARD and PRIMARY selections and record
the announced formats (clipGrabX11CB); XtOwnSelection always succeeds
in the testcase environment. -/
def clipGrabX11CB (s : ClipCtx) (u32Formats : Nat) : ClipCtx :=
  {s with vboxFormats := u32Formats, ownsClipboard := true, ownsPrimary := true}

/-- Worker for ClipAnnounceFormatToX11 running on the event thread
(clipNewVBoxFormatsWorker): invalidate the cache, grab the selections,
reset the stored X11 formats. -/
def clipNewVBoxFormatsWorker (s : ClipCtx) (u32Formats : Nat) : ClipCtx :=
  clipResetX11Formats (clipGrabX11CB (clipInvalidateVBoxCBCache s) u32Formats)

/-! ## Serving X11 conversion requests (selection-owner side) -/

/-- One step of clipEnumX11Formats' scan starting at index i. -/
def clipEnumX11FormatsFrom (mask i : Nat) : Nat :=
  if i < 8 then
    (if mask &&& clipVBoxFormatForX11Format i ≠ 0 then i
     else clipEnumX11FormatsFrom mask (i + 1))
  else 0
termination_by 8 - i

/-- Enumerate the supported X11 formats matching a VBox format mask
(clipEnumX11Formats). -/
def clipEnumX11Formats (mask lastFormat : Nat) : Nat :=
  clipEnumX11FormatsFrom mask (lastFormat + 1)

/-- The do-while loop of clipCreateX11Targets collecting matching table
indices.  The enumeration strictly increases, so over an 8-entry table
a fuel of 8 can never be exhausted before NIL is returned. -/
def clipCollectX11Targets (mask : Nat) : Nat → Nat → List Nat
  | 0, _ => []
  | fuel + 1, last =>
    let f := clipEnumX11Formats mask last
    if f = 0 then [] else f :: clipCollectX11Targets mask fuel f

/-- Build the TARGETS reply for the formats VBox announced
(clipCreateX11Targets): the atoms of every matching table entry, then
TARGETS, MULTIPLE and TIMESTAMP; reply type XA_ATOM, length the number
of atoms, bit format 32. -/
def clipCreateX11Targets (s : ClipCtx) : List Nat × Nat × Nat × Nat :=
  let atoms := (clipCollectX11Targets s.vboxFormats 8 0).map clipAtomForX11Format
      ++ [aTARGETS, aMULTIPLE, aTIMESTAMP]
  (atoms, XA_ATOM, atoms.length, 32)

/-- Wrapper around ClipRequestDataForX11 that caches Unicode data
(clipReadVBoxClipboard).  The host's answer (status and bytes, as
16-bit units) is an environment input; the hostDataCalls counter
records each actual upcall. -/
def clipReadVBoxClipboard (s : ClipCtx) (u32Format : Nat) (hostRc : VStatus)
    (hostData : List Nat) : ClipCtx × VStatus × List Nat :=
  if u32Format = VBOX_FMT_UNICODETEXT then
    match s.cache with
    | some c => (s, .VINF_SUCCESS, c)
    | none =>
      let newCache : Option (List Nat) :=
        if hostRc = .VINF_SUCCESS then some hostData else none
      let s1 := {s with hostDataCalls := s.hostDataCalls + 1, cache := newCache}
      (s1, hostRc, hostData)
  else ({s with hostDataCalls := s.hostDataCalls + 1}, hostRc, hostData)

/-- Serve a non-TARGETS conversion request from an X11 peer
(clipConvertVBoxCBForX11); the Boolean is the Xt convert-proc result. -/
def clipConvertVBoxCBForX11 (s : ClipCtx) (atomTarget : Nat) (hostRc : VStatus)
    (hostData : List Nat) : ClipCtx × Bool :=
  let x11Format := clipFindX11FormatByAtom atomTarget
  let format := clipRealFormatForX11Format x11Format
  if (format = 4 ∨ format = 3 ∨ format = 2) ∧
      s.vboxFormats &&& VBOX_FMT_UNICODETEXT ≠ 0 then
    let res := clipReadVBoxClipboard s VBOX_FMT_UNICODETEXT hostRc hostData
    let s1 := res.1
    let rc := res.2.1
    let pv := res.2.2
    if rc ≠ .VINF_SUCCESS then (s1, false)
    else if pv.length = 0 then (s1, false)
    else if format = 3 then
      match clipWinTxtToCTextForX11CB pv (2 * pv.length) with
      | .ok _ => (s1, true)
      | .error _ => (s1, false)
    else
      match clipWinTxtToUtf8ForX11CB pv (2 * pv.length) with
      | .ok _ => (s1, true)
      | .error _ => (s1, false)
  else (s, false)

/-- The XtOwnSelection convert procedure (clipXtConvertSelectionProc):
serve TARGETS from the format table, text targets from the host
clipboard, and fail everything else. -/
def clipXtConvertSelectionProc (s : ClipCtx) (atomSelection atomTarget : Nat)
    (hostRc : VStatus) (hostData : List Nat) : ClipCtx × Bool :=
  if ¬(atomSelection = aCLIPBOARD ∨ atomSelection = aPRIMARY) then (s, false)
  else if atomTarget = aTARGETS then (s, true)
  else clipConvertVBoxCBForX11 s atomTarget hostRc hostData

/-! ## Public bridge API and event-loop semantics

Queued work items run synchronously, exactly as the in-repository
testcase's clipQueueToEventThread executes the scheduled procedure
immediately in the calling thread. -/

/-- ClipConstructX11: a zeroed context; when headless, fHaveX11 stays
false and the context is inert. -/
def ClipConstructX11 (fHeadless : Bool) : ClipCtx :=
  { fHaveX11 := ¬fHeadless, fBusy := false, fUpdateNeeded := false,
    x11TextFormat := 0, x11BitmapFormat := 0, vboxFormats := 0,
    ownsClipboard := false, ownsPrimary := false, pendingConv := none,
    reported := [], completed := [], hostDataCalls := 0, cache := none }

/-- ClipStartX11: a no-op returning success when headless; otherwise
initialise and reset the stored X11 formats (widget and thread
creation are outside the modelled state and always succeed in the
testcase environment). -/
def ClipStartX11 (s : ClipCtx) (grab : Bool) : ClipCtx × VStatus :=
  if ¬s.fHaveX11 then (s, .VINF_SUCCESS)
  else (clipResetX11Formats s, .VINF_SUCCESS)

/-- ClipStopX11: a no-op returning success when headless; the widget
and pipe teardown of the non-headless path is outside the modelled
state. -/
def ClipStopX11 (s : ClipCtx) : ClipCtx × VStatus :=
  (s, .VINF_SUCCESS)

/-- ClipAnnounceFormatToX11: immediately return when headless,
otherwise queue clipNewVBoxFormatsWorker (which here runs at once). -/
def ClipAnnounceFormatToX11 (s : ClipCtx) (u32Formats : Nat) : ClipCtx :=
  if ¬s.fHaveX11 then s
  else clipNewVBoxFormatsWorker s u32Formats

/-- ClipRequestDataFromX11: return VERR_NO_DATA at once when headless,
otherwise queue vboxClipboardReadX11Worker (which here runs at once)
and return success. -/
def ClipRequestDataFromX11 (s : ClipCtx) (u32Format reqId : Nat) : ClipCtx × VStatus :=
  if ¬s.fHaveX11 then (s, .VERR_NO_DATA)
  else (vboxClipboardReadX11Worker s u32Format reqId, .VINF_SUCCESS)

/-- Events processed by the event loop of a started context. -/
inductive XEv where
  | announce (mask : Nat)
  | hostRequest (fmt reqId : Nat)
  | selRequest (sel target : Nat) (hostRc : VStatus) (hostData : List Nat)
  | targetsReply (r : X11Reply)
  | dataReply (r : X11Reply)
  | selChange (ownerNonNull : Bool)
deriving Repr

/-- One step of the event loop: announcements and host requests run
their queued workers; selection replies fire the callback registered
by the outstanding XtGetSelectionValue, if any; an XFixes
selection-owner change from another client clears our ownership and is
dispatched as in clipPeekEventAndDoXFixesHandling. -/
def clipStep (s : ClipCtx) (e : XEv) : ClipCtx :=
  match e with
  | .announce m => ClipAnnounceFormatToX11 s m
  | .hostRequest f r => (ClipRequestDataFromX11 s f r).1
  | .selRequest sel tgt hrc hdata => (clipXtConvertSelectionProc s sel tgt hrc hdata).1
  | .targetsReply r =>
    match s.pendingConv with
    | some .targets => clipConvertX11Targets {s with pendingConv := none} r
    | _ => s
  | .dataReply r =>
    match s.pendingConv with
    | some (.data f tf rq) => clipConvertX11CB {s with pendingConv := none} f tf rq r
    | _ => s
  | .selChange nonNull =>
    let s1 := {s with ownsClipboard := false, ownsPrimary := false}
    if nonNull then clipQueryX11CBFormats s1 else clipReportEmptyX11CB s1

/-- Run a list of events through the loop. -/
def clipRun (s : ClipCtx) (evs : List XEv) : ClipCtx :=
  evs.foldl clipStep s

/-- A context constructed with an X display and started with
grab-on-start disabled. -/
def startedCtx : ClipCtx :=
  (ClipStartX11 (ClipConstructX11 false) false).1

/-- Public bridge operations, for stating headless-mode properties. -/
inductive PubOp where
  | start (grab : Bool)
  | stop
  | announce (mask : Nat)
  | request (fmt reqId : Nat)
deriving Repr

/-- Run one public bridge operation, discarding the status. -/
def pubStep (s : ClipCtx) (op : PubOp) : ClipCtx :=
  match op with
  | .start g => (ClipStartX11 s g).1
  | .stop => (ClipStopX11 s).1
  | .announce m => ClipAnnounceFormatToX11 s m
  | .request f r => (ClipRequestDataFromX11 s f r).1

/-- Run a list of public bridge operations. -/
def pubRun (s : ClipCtx) (ops : List PubOp) : ClipCtx :=
  ops.foldl pubStep s

/-! ## Claim C7: best text format from a TARGETS list -/

theorem clipVBoxFmt_props {g : Nat} (h : clipVBoxFormatForX11Format g = 1) :
    g ≠ 0 ∧ 2 ≤ clipRealFormatForX11Format g := by
  by_cases hg : g < 8
  · interval_cases g <;>
      simp_all [clipVBoxFormatForX11Format, clipRealFormatForX11Format, gFormats]
  · exfalso
    have hd : gFormats.getD g (0, 0) = (0, 0) :=
      List.getD_eq_default _ _ (by simp [gFormats]; omega)
    have h0 : clipVBoxFormatForX11Format g = 0 := by
      unfold clipVBoxFormatForX11Format
      rw [hd]
    rw [h0] at h
    exact absurd h (by norm_num)

theorem clipGetTextFormatFromTargetsAux_spec :
    ∀ (ts : List Nat) (best : Nat),
    clipRealFormatForX11Format best ≤
        clipRealFormatForX11Format
          (clipGetTextFormatFromTargetsAux ts best (clipRealFormatForX11Format best))
    ∧ (clipGetTextFormatFromTargetsAux ts best (clipRealFormatForX11Format best) = best
       ∨ (clipGetTextFormatFromTargetsAux ts best (clipRealFormatForX11Format best) ≠ 0
          ∧ clipVBoxFormatForX11Format
              (clipGetTextFormatFromTargetsAux ts best (clipRealFormatForX11Format best)) = 1
          ∧ ∃ t ∈ ts, clipFindX11FormatByAtom t =
              clipGetTextFormatFromTargetsAux ts best (clipRealFormatForX11Format best)))
    ∧ (∀ t ∈ ts, clipFindX11FormatByAtom t ≠ 0 →
        clipVBoxFormatForX11Format (clipFindX11FormatByAtom t) = 1 →
        clipRealFormatForX11Format (clipFindX11FormatByAtom t) ≤
          clipRealFormatForX11Format
            (clipGetTextFormatFromTargetsAux ts best (clipRealFormatForX11Format best)))
  | [], best => by
    refine ⟨le_refl _, Or.inl rfl, ?_⟩
    intro t ht
    simp at ht
  | t :: rest, best => by
    set g := clipFindX11FormatByAtom t with hg
    by_cases hcond : g ≠ 0 ∧ clipVBoxFormatForX11Format g = VBOX_FMT_UNICODETEXT ∧
        clipRealFormatForX11Format best < clipRealFormatForX11Format g
    · have hunf : clipGetTextFormatFromTargetsAux (t :: rest) best
          (clipRealFormatForX11Format best) =
          clipGetTextFormatFromTargetsAux rest g (clipRealFormatForX11Format g) := by
        rw [clipGetTextFormatFromTargetsAux]
        simp only [← hg]
        rw [if_pos hcond]
      obtain ⟨ih1, ih2, ih3⟩ := clipGetTextFormatFromTargetsAux_spec rest g
      rw [hunf]
      refine ⟨le_trans (le_of_lt hcond.2.2) ih1, ?_, ?_⟩
      · rcases ih2 with heq | ⟨hne, hvb, t', ht', hfind⟩
        · refine Or.inr ⟨?_, ?_, t, by simp, ?_⟩
          · rw [heq]; exact hcond.1
          · rw [heq]; exact hcond.2.1
          · rw [heq]
        · exact Or.inr ⟨hne, hvb, t', by simp [ht'], hfind⟩
      · intro u hu hune huvb
        rcases List.mem_cons.mp hu with rfl | hu'
        · exact le_trans (le_of_eq (by rw [← hg])) ih1
        · exact ih3 u hu' hune huvb
    · have hunf : clipGetTextFormatFromTargetsAux (t :: rest) best
          (clipRealFormatForX11Format best) =
          clipGetTextFormatFromTargetsAux rest best (clipRealFormatForX11Format best) := by
        rw [clipGetTextFormatFromTargetsAux]
        simp only [← hg]
        rw [if_neg hcond]
      obtain ⟨ih1, ih2, ih3⟩ := clipGetTextFormatFromTargetsAux_spec rest best
      rw [hunf]
      refine ⟨ih1, ?_, ?_⟩
      · rcases ih2 with heq | ⟨hne, hvb, t', ht', hfind⟩
        · exact Or.inl heq
        · exact Or.inr ⟨hne, hvb, t', by simp [ht'], hfind⟩
      · intro u hu hune huvb
        rcases List.mem_cons.mp hu with rfl | hu'
        · have hle : clipRealFormatForX11Format g ≤ clipRealFormatForX11Format best := by
            by_contra hlt
            exact hcond ⟨by rw [← hg] at hune; exact hune,
              by rw [← hg] at huvb; exact huvb, by omega⟩
          exact le_trans (le_of_le_of_eq (le_of_eq (by rw [← hg])) rfl)
            (le_trans hle ih1)
        · exact ih3 u hu' hune huvb

/-- C7: clipGetTextFormatFromTargets returns, for every list of target
atoms, the highest-preference recognised entry whose VBox format is the
Unicode-text bit (preference being the CLIPFORMAT order
Utf8 = 4 > CText = 3 > Text = 2 > Invalid = 0), and returns
NIL_CLIPX11FORMAT = 0 when the list holds no recognised Unicode-text
atom. -/
theorem claim_C7 (targets : List Nat) :
    ((∃ t ∈ targets, clipFindX11FormatByAtom t ≠ 0 ∧
        clipVBoxFormatForX11Format (clipFindX11FormatByAtom t) = VBOX_FMT_UNICODETEXT) →
      clipGetTextFormatFromTargets targets ≠ 0 ∧
      clipVBoxFormatForX11Format (clipGetTextFormatFromTargets targets) =
        VBOX_FMT_UNICODETEXT ∧
      (∃ t ∈ targets, clipFindX11FormatByAtom t = clipGetTextFormatFromTargets targets) ∧
      (∀ t ∈ targets, clipFindX11FormatByAtom t ≠ 0 →
        clipVBoxFormatForX11Format (clipFindX11FormatByAtom t) = VBOX_FMT_UNICODETEXT →
        clipRealFormatForX11Format (clipFindX11FormatByAtom t) ≤
          clipRealFormatForX11Format (clipGetTextFormatFromTargets targets)))
    ∧ ((∀ t ∈ targets, clipFindX11FormatByAtom t = 0 ∨
        clipVBoxFormatForX11Format (clipFindX11FormatByAtom t) ≠ VBOX_FMT_UNICODETEXT) →
      clipGetTextFormatFromTargets targets = 0) := by
  have hreal0 : clipRealFormatForX11Format 0 = 0 := rfl
  have hspec := clipGetTextFormatFromTargetsAux_spec targets 0
  rw [hreal0] at hspec
  obtain ⟨h1, h2, h3⟩ := hspec
  have hres : clipGetTextFormatFromTargets targets =
      clipGetTextFormatFromTargetsAux targets 0 0 := rfl
  constructor
  · rintro ⟨t, ht, htne, htvb⟩
    have hle := h3 t ht htne htvb
    have hge := (clipVBoxFmt_props htvb).2
    have hrne : clipGetTextFormatFromTargetsAux targets 0 0 ≠ 0 := by
      intro h0
      rw [h0, hreal0] at hle
      omega
    rcases h2 with heq | ⟨hne, hvb, hex⟩
    · exact absurd heq hrne
    · exact ⟨hres ▸ hrne, hres ▸ hvb, hres ▸ hex, fun u hu hune huvb =>
        hres ▸ h3 u hu hune huvb⟩
  · intro hnone
    rcases h2 with heq | ⟨hne, hvb, t', ht', hfind⟩
    · rw [hres, heq]
    · exfalso
      rcases hnone t' ht' with h0 | hnvb
      · rw [h0] at hfind
        exact hne hfind.symm
      · rw [hfind] at hnvb
        exact hnvb hvb

/-- Witness for C7 at the concrete target list containing only the
STRING atom: the chosen format is recognised, Unicode-text, and not
NIL. -/
theorem claim_C7_witness :
    clipGetTextFormatFromTargets [4100] ≠ 0 ∧
    clipVBoxFormatForX11Format (clipGetTextFormatFromTargets [4100]) =
      VBOX_FMT_UNICODETEXT := by
  have h := (claim_C7 [4100]).1 ⟨4100, by simp, by decide, by decide⟩
  exact ⟨h.1, h.2.1⟩

/-! ## Claim C8: the TARGETS reply -/

theorem clipCollect_and_filter (mask : Nat) :
    clipCollectX11Targets mask 8 0 =
      (List.range 8).filter (fun i => mask &&& clipVBoxFormatForX11Format i != 0) := by
  have hrange : List.range 8 = [0, 1, 2, 3, 4, 5, 6, 7] := by decide
  have h8 : clipEnumX11FormatsFrom mask 8 = 0 := by
    rw [clipEnumX11FormatsFrom]; norm_num
  by_cases hm : mask &&& 1 = 0
  · have h7 : clipEnumX11FormatsFrom mask 7 = 0 := by
      rw [clipEnumX11FormatsFrom]
      norm_num [clipVBoxFormatForX11Format, gFormats, hm, h8]
    have h6 : clipEnumX11FormatsFrom mask 6 = 0 := by
      rw [clipEnumX11FormatsFrom]
      norm_num [clipVBoxFormatForX11Format, gFormats, hm, h7]
    have h5 : clipEnumX11FormatsFrom mask 5 = 0 := by
      rw [clipEnumX11FormatsFrom]
      norm_num [clipVBoxFormatForX11Format, gFormats, hm, h6]
    have h4 : clipEnumX11FormatsFrom mask 4 = 0 := by
      rw [clipEnumX11FormatsFrom]
      norm_num [clipVBoxFormatForX11Format, gFormats, hm, h5]
    have h3 : clipEnumX11FormatsFrom mask 3 = 0 := by
      rw [clipEnumX11FormatsFrom]
      norm_num [clipVBoxFormatForX11Format, gFormats, hm, h4]
    have h2 : clipEnumX11FormatsFrom mask 2 = 0 := by
      rw [clipEnumX11FormatsFrom]
      norm_num [clipVBoxFormatForX11Format, gFormats, hm, h3]
    have h1 : clipEnumX11FormatsFrom mask 1 = 0 := by
      rw [clipEnumX11FormatsFrom]
      norm_num [clipVBoxFormatForX11Format, gFormats, hm, h2]
    have hcollect : clipCollectX11Targets mask 8 0 = [] := by
      rw [clipCollectX11Targets]
      simp [clipEnumX11Formats, h1]
    rw [hcollect, hrange]
    norm_num [List.filter, clipVBoxFormatForX11Format, gFormats, Nat.and_zero, hm]
  · have h7 : clipEnumX11FormatsFrom mask 7 = 7 := by
      rw [clipEnumX11FormatsFrom]
      norm_num [clipVBoxFormatForX11Format, gFormats]
      intro h
      rw [Nat.and_one_is_mod] at hm
      omega
    have h6 : clipEnumX11FormatsFrom mask 6 = 6 := by
      rw [clipEnumX11FormatsFrom]
      norm_num [clipVBoxFormatForX11Format, gFormats]
      intro h
      rw [Nat.and_one_is_mod] at hm
      omega
    have h5 : clipEnumX11FormatsFrom mask 5 = 5 := by
      rw [clipEnumX11FormatsFrom]
      norm_num [clipVBoxFormatForX11Format, gFormats]
      intro h
      rw [Nat.and_one_is_mod] at hm
      omega
    have h4 : clipEnumX11FormatsFrom mask 4 = 4 := by
      rw [clipEnumX11FormatsFrom]
      norm_num [clipVBoxFormatForX11Format, gFormats]
      intro h
      rw [Nat.and_one_is_mod] at hm
      omega
    have h3 : clipEnumX11FormatsFrom mask 3 = 3 := by
      rw [clipEnumX11FormatsFrom]
      norm_num [clipVBoxFormatForX11Format, gFormats]
      intro h
      rw [Nat.and_one_is_mod] at hm
      omega
    have h2 : clipEnumX11FormatsFrom mask 2 = 2 := by
      rw [clipEnumX11FormatsFrom]
      norm_num [clipVBoxFormatForX11Format, gFormats]
      intro h
      rw [Nat.and_one_is_mod] at hm
      omega
    have h1 : clipEnumX11FormatsFrom mask 1 = 1 := by
      rw [clipEnumX11FormatsFrom]
      norm_num [clipVBoxFormatForX11Format, gFormats]
      intro h
      rw [Nat.and_one_is_mod] at hm
      omega
    have hcollect : clipCollectX11Targets mask 8 0 = [1, 2, 3, 4, 5, 6, 7] := by
      simp [clipCollectX11Targets, clipEnumX11Formats, h1, h2, h3, h4, h5, h6, h7, h8]
    have hm2 : mask % 2 = 1 := by
      rw [Nat.and_one_is_mod] at hm
      omega
    rw [hcollect, hrange]
    norm_num [List.filter, clipVBoxFormatForX11Format, gFormats, Nat.and_zero,
      Nat.and_one_is_mod, hm2]
    decide

/-- C8: for every announced host format mask, the TARGETS reply built by
clipCreateX11Targets contains exactly the atoms of the format-table
entries whose VBox format mask intersects the announced mask, followed
by the TARGETS, MULTIPLE and TIMESTAMP atoms; the reply type is ATOM,
the reported length counts all atoms, and the bit format is 32. -/
theorem claim_C8 (s : ClipCtx) :
    clipCreateX11Targets s =
      (((List.range 8).filter
          (fun i => s.vboxFormats &&& clipVBoxFormatForX11Format i != 0)).map
            clipAtomForX11Format
        ++ [aTARGETS, aMULTIPLE, aTIMESTAMP],
       XA_ATOM,
       ((List.range 8).filter
          (fun i => s.vboxFormats &&& clipVBoxFormatForX11Format i != 0)).length + 3,
       32) := by
  unfold clipCreateX11Targets
  rw [clipCollect_and_filter]
  simp

/-! ## Claims C3 and C6: the X11-to-host text conversions -/

theorem clipUtf8ToWinTxt_eq {src units : List Nat} (hb : ∀ b ∈ src, b ≠ 0)
    (hu : ∀ u ∈ units, u ≠ 0) (hd : utf8Decode src = some units) :
    clipUtf8ToWinTxt src src.length =
      .ok (lfToCrLf units ++ [0], 2 * ((lfToCrLf units).length + 1)) := by
  unfold clipUtf8ToWinTxt rtStrToUtf16
  rw [List.take_length, takeUntilNul_eq_self hb, hd]
  show clipUtf16ToWinTxt units units.length = _
  unfold clipUtf16ToWinTxt vboxClipboardUtf16GetWinSize vboxClipboardUtf16LinToWin
  have htake : units.take (units.length + 1) = units :=
    List.take_of_length_le (by omega)
  rw [htake, takeUntilNul_eq_self hu]

/-- C3 counterexample: on the Latin-1 path, the two-byte input CR LF is
converted to CR CR LF followed by the terminator, not to the intact
CR LF the specification promises: the LF is expanded although it
already follows a CR.  (The in-repository testcase expects exactly
this CRCRLF behaviour on all three conversion paths.) -/
theorem claim_C3_counterexample :
    clipLatin1ToWinTxt [13, 10] 2 = ([13, 13, 10, 0], 8) ∧
    specLfToCrLf [13, 10] ++ [0] = [13, 10, 0] ∧
    (clipLatin1ToWinTxt [13, 10] 2).1 ≠ specLfToCrLf [13, 10] ++ [0] := by
  refine ⟨by rfl, by rfl, ?_⟩
  decide

/-- C3 (amended): in all three X11-to-host conversions, every LF in the
input is expanded to CRLF, including an LF already preceded by CR (so
an existing CRLF becomes CRCRLF rather than being left intact), and the
output carries a trailing NUL code unit.  Stated for inputs without
embedded NUL (the conversions stop at a terminator): the Latin-1
conversion for arbitrary bytes, the UTF-8 conversion for inputs that
decode to some unit list, and the compound-text conversion for ASCII
inputs. -/
theorem claim_C3_amended :
    (∀ src : List Nat, (∀ c ∈ src, c ≠ 0) →
      clipLatin1ToWinTxt src src.length =
        (lfToCrLf src ++ [0], 2 * ((lfToCrLf src).length + 1)))
    ∧ (∀ src units : List Nat, (∀ b ∈ src, b ≠ 0) → (∀ u ∈ units, u ≠ 0) →
      utf8Decode src = some units →
      clipUtf8ToWinTxt src src.length =
        .ok (lfToCrLf units ++ [0], 2 * ((lfToCrLf units).length + 1)))
    ∧ (∀ src : List Nat, (∀ b ∈ src, b ≠ 0 ∧ b < 0x80) →
      clipCTextToWinTxt src src.length =
        .ok (lfToCrLf src ++ [0], 2 * ((lfToCrLf src).length + 1))) := by
  refine ⟨?_, ?_, ?_⟩
  · intro src h
    simp only [clipLatin1ToWinTxt, List.take_length, takeUntilNul_eq_self h,
      Nat.add_sub_cancel]
  · intro src units hb hu hd
    exact clipUtf8ToWinTxt_eq hb hu hd
  · intro src h
    match hsrc : src with
    | [] => rfl
    | b0 :: rest =>
      unfold clipCTextToWinTxt
      rw [if_neg (by simp), List.take_length]
      rw [if_pos (fun b hb => (h b hb).2)]
      have hb : ∀ b ∈ b0 :: rest, b ≠ 0 := fun b hbm => (h b hbm).1
      rw [takeUntilNul_eq_self hb]
      exact clipUtf8ToWinTxt_eq hb hb
        (utf8Decode_ascii fun b hbm => (h b hbm).2)

/-- Witness for the amended C3 at concrete inputs: the Latin-1 and
UTF-8 conversions of the bytes a LF b and the compound-text conversion
of CR LF all expand the line endings and append the terminator. -/
theorem claim_C3_amended_witness :
    clipLatin1ToWinTxt [97, 10, 98] 3 = ([97, 13, 10, 98, 0], 10) ∧
    clipUtf8ToWinTxt [97, 10, 98] 3 = .ok ([97, 13, 10, 98, 0], 10) ∧
    clipCTextToWinTxt [13, 10] 2 = .ok ([13, 13, 10, 0], 8) := by
  have h := claim_C3_amended
  refine ⟨?_, ?_, ?_⟩
  · exact h.1 [97, 10, 98] (by decide)
  · exact h.2.1 [97, 10, 98] [97, 10, 98] (by decide) (by decide) (by rfl)
  · exact h.2.2 [13, 10] (by decide)

/-- C6: for every nonempty well-formed UTF-16 host input (nonzero,
non-surrogate BMP code units) following CRLF line-ending conventions,
converting host to UTF-8 with clipWinTxtToUtf8 and converting the
resulting UTF-8 back with clipUtf8ToWinTxt returns exactly the
original code units, modulo the trailing NUL terminator that the
host-bound conversion appends. -/
theorem claim_C6 (src : List Nat) (hne : src ≠ [])
    (hval : ∀ c ∈ src, 0 < c ∧ validBmp c)
    (hconv : isCrlfConv src = true) :
    ∃ utf8 n, clipWinTxtToUtf8 src (2 * src.length) = .ok (utf8, n) ∧
      clipUtf8ToWinTxt utf8 n = .ok (src ++ [0], 2 * (src.length + 1)) := by
  have h0 : ∀ c ∈ src, c ≠ 0 := fun c hc => by
    have := (hval c hc).1
    omega
  have hcont0 : ∀ c ∈ crlfToLf src, c ≠ 0 := fun c hc => h0 c (crlfToLf_mem hc)
  have hcontv : ∀ c ∈ crlfToLf src, validBmp c := fun c hc =>
    (hval c (crlfToLf_mem hc)).2
  have hcontpos : ∀ c ∈ crlfToLf src, 0 < c := fun c hc =>
    (hval c (crlfToLf_mem hc)).1
  have hcw : 2 * src.length / 2 = src.length := by omega
  have hlen0 : src.length ≠ 0 := fun hz => hne (List.eq_nil_of_length_eq_zero hz)
  -- the forward conversion
  have hconvbytes : rtUtf16ToUtf8 (crlfToLf src ++ [0]) =
      some (utf8Encode (crlfToLf src)) := by
    unfold rtUtf16ToUtf8
    have hnul : takeUntilNul (crlfToLf src ++ [0]) = crlfToLf src := by
      have := takeUntilNul_append_nul (t := ([] : List Nat)) hcont0
      simpa using this
    rw [hnul, if_pos hcontv]
  have htk : (crlfToLf src ++ [0]).take ((crlfToLf src).length + 1) =
      crlfToLf src ++ [0] :=
    List.take_of_length_le (by simp)
  have hc2 : (crlfToLf src).length + 2 ≠ 0 := by omega
  have harith : (crlfToLf src).length + 2 - 1 = (crlfToLf src).length + 1 := by omega
  have hforward : clipWinTxtToUtf8 src (2 * src.length) =
      .ok (utf8Encode (crlfToLf src) ++ [0], (utf8Encode (crlfToLf src)).length + 1) := by
    simp only [clipWinTxtToUtf8, vboxClipboardUtf16GetLinSize,
      vboxClipboardUtf16WinToLin, hcw, List.take_length, takeUntilNul_eq_self h0]
    simp only [if_neg hlen0, if_neg hc2, List.drop, harith, htk, hconvbytes]
  refine ⟨utf8Encode (crlfToLf src) ++ [0], (utf8Encode (crlfToLf src)).length + 1,
    hforward, ?_⟩
  -- the backward conversion
  have henc0 : ∀ b ∈ utf8Encode (crlfToLf src), b ≠ 0 :=
    utf8Encode_ne_zero hcontpos
  have hlenarg : (utf8Encode (crlfToLf src)).length + 1 =
      (utf8Encode (crlfToLf src) ++ [0]).length := by simp
  have hdec : utf8Decode (takeUntilNul (utf8Encode (crlfToLf src) ++ [0])) =
      some (crlfToLf src) := by
    have hnul : takeUntilNul (utf8Encode (crlfToLf src) ++ [0]) =
        utf8Encode (crlfToLf src) := by
      have := takeUntilNul_append_nul (t := ([] : List Nat)) henc0
      simpa using this
    rw [hnul]
    exact utf8Decode_encode hcontv
  have hback : clipUtf8ToWinTxt (utf8Encode (crlfToLf src) ++ [0])
      ((utf8Encode (crlfToLf src)).length + 1) =
      .ok (lfToCrLf (crlfToLf src) ++ [0], 2 * ((lfToCrLf (crlfToLf src)).length + 1)) := by
    unfold clipUtf8ToWinTxt rtStrToUtf16
    have htk : (utf8Encode (crlfToLf src) ++ [0]).take
        ((utf8Encode (crlfToLf src)).length + 1) = utf8Encode (crlfToLf src) ++ [0] :=
      List.take_of_length_le (by simp)
    rw [htk, hdec]
    show clipUtf16ToWinTxt (crlfToLf src) (crlfToLf src).length = _
    unfold clipUtf16ToWinTxt vboxClipboardUtf16GetWinSize vboxClipboardUtf16LinToWin
    have htk2 : (crlfToLf src).take ((crlfToLf src).length + 1) = crlfToLf src :=
      List.take_of_length_le (by omega)
    rw [htk2, takeUntilNul_eq_self hcont0]
  rw [hback, lfToCrLf_crlfToLf src hconv]

/-- Witness for C6 at the concrete input h e CR LF l: the round trip
through UTF-8 returns the original code units plus the terminator. -/
theorem claim_C6_witness :
    ∃ utf8 n, clipWinTxtToUtf8 [104, 101, 13, 10, 108] 10 = .ok (utf8, n) ∧
      clipUtf8ToWinTxt utf8 n = .ok ([104, 101, 13, 10, 108, 0], 12) :=
  claim_C6 [104, 101, 13, 10, 108] (by decide) (by decide) (by decide)

/-! ## Claims about the request state machine -/

theorem clipQueryX11CBFormats_pres (s : ClipCtx) :
    (clipQueryX11CBFormats s).vboxFormats = s.vboxFormats ∧
    (clipQueryX11CBFormats s).hostDataCalls = s.hostDataCalls ∧
    (clipQueryX11CBFormats s).completed = s.completed ∧
    (clipQueryX11CBFormats s).reported = s.reported ∧
    (clipQueryX11CBFormats s).x11TextFormat = s.x11TextFormat := by
  unfold clipQueryX11CBFormats
  split <;> exact ⟨rfl, rfl, rfl, rfl, rfl⟩

/-- C2 counterexample: a reply carrying the XT_CONVERT_FAIL type atom
together with a NULL data pointer completes the request with
VERR_NO_DATA, not VERR_TIMEOUT: the NULL check precedes the timeout
check in clipConvertX11CB. -/
theorem claim_C2_counterexample :
    (clipConvertX11CB startedCtx 1 1 7
        { atomType := xtConvertFail, value := none, count := 0, format := 8 }).completed =
      [(.VERR_NO_DATA, 7, [])] ∧
    VStatus.VERR_NO_DATA ≠ VStatus.VERR_TIMEOUT := by
  exact ⟨rfl, by decide⟩

/-- C2 (amended): for every X11 selection reply delivered to a pending
host data request whose type atom is XT_CONVERT_FAIL and whose data
pointer is non-null, the completion callback is invoked with
VERR_TIMEOUT, regardless of the requested host format and of the
reply's remaining fields; when the data pointer is null, VERR_NO_DATA
takes precedence. -/
theorem claim_C2_amended (s : ClipCtx) (mFormat mTextFormat reqId : Nat)
    (r : X11Reply) (v : List Nat) (hv : r.value = some v)
    (ht : r.atomType = xtConvertFail) :
    (clipConvertX11CB s mFormat mTextFormat reqId r).completed =
      (.VERR_TIMEOUT, reqId, []) :: s.completed := by
  simp only [clipConvertX11CB, clipComplete, hv, ht, eq_self_iff_true, if_true]
  split
  · exact congrArg _ (clipQueryX11CBFormats_pres _).2.2.1
  · rfl

/-- Witness for the amended C2: a concrete XT_CONVERT_FAIL reply with
data present completes with VERR_TIMEOUT. -/
theorem claim_C2_amended_witness :
    (clipConvertX11CB startedCtx 1 1 9
        { atomType := xtConvertFail, value := some [104], count := 1, format := 8 }).completed =
      [(.VERR_TIMEOUT, 9, [])] :=
  claim_C2_amended startedCtx 1 1 9 _ [104] rfl rfl

/-- C5: whenever the request worker runs while fBusy is already true,
the request completes with VERR_TRY_AGAIN through the completion
callback and nothing else changes: no X11 conversion is issued, no
request is queued, and the in-flight transfer (pendingConv and every
other field) is untouched. -/
theorem claim_C5 (s : ClipCtx) (mFormat reqId : Nat) (h : s.fBusy = true) :
    vboxClipboardReadX11Worker s mFormat reqId =
      {s with completed := (.VERR_TRY_AGAIN, reqId, []) :: s.completed} := by
  cases s
  simp only [vboxClipboardReadX11Worker, clipComplete] at h ⊢
  simp_all

/-- Witness for C5: a concrete busy context with a TARGETS poll in
flight fends off a host request with VERR_TRY_AGAIN and keeps the poll
outstanding. -/
theorem claim_C5_witness :
    vboxClipboardReadX11Worker
        {startedCtx with
          fBusy := true,
          pendingConv := some PendingConv.targets} 1 5 =
      {startedCtx with
        fBusy := true,
        pendingConv := some PendingConv.targets,
        completed := [(.VERR_TRY_AGAIN, 5, [])]} :=
  claim_C5 {startedCtx with fBusy := true, pendingConv := some PendingConv.targets} 1 5 rfl

/-- C4 (code bug): after a host data request that completes immediately
without issuing an X11 conversion, the busy flag stays true although no
transfer is outstanding.  With no stored text target (x11TextFormat is
INVALID) the worker completes with VERR_NO_DATA but leaves fBusy set;
with a non-text host format (0xFFFF) it completes with
VERR_NOT_IMPLEMENTED and also leaves fBusy set.  The claim (and the
spec's invariant that busy holds iff a transfer is outstanding) demands
fBusy be false again in both cases. -/
theorem claim_C4_bug :
    (vboxClipboardReadX11Worker startedCtx 1 42).fBusy = true ∧
    (vboxClipboardReadX11Worker startedCtx 1 42).pendingConv = none ∧
    (vboxClipboardReadX11Worker startedCtx 1 42).completed = [(.VERR_NO_DATA, 42, [])] ∧
    (vboxClipboardReadX11Worker startedCtx 0xFFFF 43).fBusy = true ∧
    (vboxClipboardReadX11Worker startedCtx 0xFFFF 43).pendingConv = none ∧
    (vboxClipboardReadX11Worker startedCtx 0xFFFF 43).completed =
      [(.VERR_NOT_IMPLEMENTED, 43, [])] := by
  exact ⟨rfl, rfl, rfl, rfl, rfl, rfl⟩

/-- C10 counterexample: a TARGETS reply carrying the UTF8_STRING atom
arrives while fUpdateNeeded is set; the claim requires x11_text_format
to be updated (here to table index 1) and the host to be notified, but
the code discards the reply: the text format stays 0, nothing is
reported, and only a fresh TARGETS conversion is issued. -/
theorem claim_C10_counterexample :
    (clipConvertX11Targets
        {startedCtx with
          fBusy := true,
          fUpdateNeeded := true,
          pendingConv := some PendingConv.targets}
        { atomType := XA_ATOM, value := some [4097], count := 1, format := 32 }).x11TextFormat
        = 0 ∧
    (clipConvertX11Targets
        {startedCtx with
          fBusy := true,
          fUpdateNeeded := true,
          pendingConv := some PendingConv.targets}
        { atomType := XA_ATOM, value := some [4097], count := 1, format := 32 }).reported
        = [] ∧
    clipGetTextFormatFromTargets [4097] = 1 := by
  exact ⟨rfl, rfl, rfl⟩

/-- C10 (amended): on a TARGETS reply, if fUpdateNeeded was set the
reply is discarded: the flag is cleared and a fresh TARGETS conversion
is issued immediately (busy stays true), without updating
x11_text_format and without notifying the host; only when
fUpdateNeeded was clear does the machine return to Idle, update
x11_text_format from the reply's atom list and notify the host of the
resulting formats (reporting an empty set when the reply failed or
carried no data). -/
theorem claim_C10_amended (s : ClipCtx) (r : X11Reply) :
    (s.fUpdateNeeded = true →
      clipConvertX11Targets s r =
        {s with
          fBusy := true,
          fUpdateNeeded := false,
          pendingConv := some PendingConv.targets})
    ∧ (s.fUpdateNeeded = false → ∀ v, r.value = some v →
      r.atomType ≠ xtConvertFail →
      (clipConvertX11Targets s r).fBusy = false ∧
      (clipConvertX11Targets s r).x11TextFormat = clipGetTextFormatFromTargets v ∧
      (clipConvertX11Targets s r).reported =
        clipVBoxFormatForX11Format (clipGetTextFormatFromTargets v) :: s.reported)
    ∧ (s.fUpdateNeeded = false →
      r.atomType = xtConvertFail ∨ r.value = none →
      (clipConvertX11Targets s r).fBusy = false ∧
      (clipConvertX11Targets s r).x11TextFormat = 0 ∧
      (clipConvertX11Targets s r).reported = clipVBoxFormatForX11Format 0 :: s.reported) := by
  refine ⟨?_, ?_, ?_⟩
  · intro hu
    simp only [clipConvertX11Targets, hu, if_true, clipQueryX11CBFormats, if_false]
    rfl
  · intro hu v hv ht
    have hcond : ¬(r.atomType = xtConvertFail ∨ (some v : Option (List Nat)) = none) := by
      simp [ht]
    simp only [clipConvertX11Targets, hu, hv, if_false,
      clipUpdateX11Targets, clipGetFormatsFromTargets, clipReportFormatsToVBox,
      if_neg hcond]
    exact ⟨rfl, rfl, rfl⟩
  · intro hu hfail
    simp only [clipConvertX11Targets, hu, if_false,
      clipReportEmptyX11CB, clipResetX11Formats, clipReportFormatsToVBox]
    rw [if_pos hfail]
    exact ⟨rfl, rfl, rfl⟩

/-! ## Claim C1: empty announcement -/

theorem clipConvertX11Targets_pres (s : ClipCtx) (r : X11Reply) :
    (clipConvertX11Targets s r).vboxFormats = s.vboxFormats ∧
    (clipConvertX11Targets s r).hostDataCalls = s.hostDataCalls := by
  simp only [clipConvertX11Targets, clipReportEmptyX11CB, clipUpdateX11Targets,
    clipGetFormatsFromTargets, clipReportFormatsToVBox, clipResetX11Formats,
    clipQueryX11CBFormats]
  repeat' split
  all_goals exact ⟨rfl, rfl⟩

theorem clipConvertX11CB_pres (s : ClipCtx) (a b c : Nat) (r : X11Reply) :
    (clipConvertX11CB s a b c r).vboxFormats = s.vboxFormats ∧
    (clipConvertX11CB s a b c r).hostDataCalls = s.hostDataCalls := by
  simp only [clipConvertX11CB, clipComplete, clipQueryX11CBFormats]
  repeat' split
  all_goals exact ⟨rfl, rfl⟩

theorem vboxClipboardReadX11Worker_pres (s : ClipCtx) (a b : Nat) :
    (vboxClipboardReadX11Worker s a b).vboxFormats = s.vboxFormats ∧
    (vboxClipboardReadX11Worker s a b).hostDataCalls = s.hostDataCalls := by
  simp only [vboxClipboardReadX11Worker, clipComplete]
  repeat' split
  all_goals exact ⟨rfl, rfl⟩

theorem clipXtConvert_pres_empty (s : ClipCtx) (sel tgt : Nat) (hrc : VStatus)
    (hd : List Nat) (hv : s.vboxFormats = 0) :
    (clipXtConvertSelectionProc s sel tgt hrc hd).1 = s := by
  have hand : s.vboxFormats &&& VBOX_FMT_UNICODETEXT = 0 := by
    rw [hv]
    exact Nat.zero_and _
  unfold clipXtConvertSelectionProc clipConvertVBoxCBForX11
  split
  · rfl
  · split
    · rfl
    · rw [if_neg (by simp [hand])]

theorem clipStep_inv (s : ClipCtx) (e : XEv) (hv : s.vboxFormats = 0)
    (he : ∀ m, e = XEv.announce m → m = 0) :
    (clipStep s e).vboxFormats = 0 ∧ (clipStep s e).hostDataCalls = s.hostDataCalls := by
  cases e with
  | announce m =>
    have hm := he m rfl
    subst hm
    simp only [clipStep]
    unfold ClipAnnounceFormatToX11 clipNewVBoxFormatsWorker clipGrabX11CB
      clipInvalidateVBoxCBCache clipResetX11Formats
    by_cases hx : ¬s.fHaveX11 = true
    · rw [if_pos hx]
      exact ⟨hv, rfl⟩
    · rw [if_neg hx]
      exact ⟨rfl, rfl⟩
  | hostRequest f r =>
    simp only [clipStep]
    unfold ClipRequestDataFromX11
    by_cases hx : ¬s.fHaveX11 = true
    · rw [if_pos hx]
      exact ⟨hv, rfl⟩
    · rw [if_neg hx]
      have h := vboxClipboardReadX11Worker_pres s f r
      exact ⟨h.1.trans hv, h.2⟩
  | selRequest sel tgt hrc hd =>
    simp only [clipStep]
    rw [clipXtConvert_pres_empty s sel tgt hrc hd hv]
    exact ⟨hv, rfl⟩
  | targetsReply r =>
    simp only [clipStep]
    cases hp : s.pendingConv with
    | none => exact ⟨hv, rfl⟩
    | some pc =>
      cases pc with
      | targets =>
        have h := clipConvertX11Targets_pres {s with pendingConv := none} r
        exact ⟨h.1.trans hv, h.2⟩
      | data f tf rq => exact ⟨hv, rfl⟩
  | dataReply r =>
    simp only [clipStep]
    cases hp : s.pendingConv with
    | none => exact ⟨hv, rfl⟩
    | some pc =>
      cases pc with
      | targets => exact ⟨hv, rfl⟩
      | data f tf rq =>
        have h := clipConvertX11CB_pres {s with pendingConv := none} f tf rq r
        exact ⟨h.1.trans hv, h.2⟩
  | selChange nn =>
    simp only [clipStep]
    by_cases hn : nn = true
    · rw [if_pos hn]
      have h := clipQueryX11CBFormats_pres
        {s with ownsClipboard := false, ownsPrimary := false}
      exact ⟨h.1.trans hv, h.2.1⟩
    · rw [if_neg hn]
      exact ⟨hv, rfl⟩

theorem clipRun_inv (evs : List XEv) : ∀ (s : ClipCtx), s.vboxFormats = 0 →
    (∀ e ∈ evs, ∀ m, e = XEv.announce m → m = 0) →
    (clipRun s evs).vboxFormats = 0 ∧
    (clipRun s evs).hostDataCalls = s.hostDataCalls := by
  induction evs with
  | nil =>
    intro s hv _
    exact ⟨hv, rfl⟩
  | cons e rest ih =>
    intro s hv he
    have hstep := clipStep_inv s e hv (he e (by simp))
    have hrest := ih (clipStep s e) hstep.1 (fun e' he' => he e' (by simp [he']))
    exact ⟨hrest.1, hrest.2.trans hstep.2⟩

/-- C1 counterexample: immediately after the empty announcement the
context OWNS both the CLIPBOARD and PRIMARY selections — the worker
calls XtOwnSelection for any mask, including zero — contradicting the
claim that the empty announcement releases the selections and that the
context never owns one.  (The code's own testcase asserts g_ownsSel
after announcing an empty format set.) -/
theorem claim_C1_counterexample :
    (clipStep startedCtx (XEv.announce 0)).ownsClipboard = true ∧
    (clipStep startedCtx (XEv.announce 0)).ownsPrimary = true := ⟨rfl, rfl⟩

/-- C1 (amended): after announce_formats(0) on a started context the
context grabs (owns) the CLIPBOARD and PRIMARY selections rather than
releasing them, but it never calls ClipRequestDataForX11: along every
subsequent event sequence containing no non-empty announcement, the
count of host-data upcalls stays zero (conversion requests from X11
peers fail with not-supported because the recorded format mask is 0). -/
theorem claim_C1_amended (evs : List XEv)
    (he : ∀ e ∈ evs, ∀ m, e = XEv.announce m → m = 0) :
    (clipStep startedCtx (XEv.announce 0)).ownsClipboard = true ∧
    (clipStep startedCtx (XEv.announce 0)).ownsPrimary = true ∧
    (clipRun (clipStep startedCtx (XEv.announce 0)) evs).hostDataCalls = 0 := by
  refine ⟨rfl, rfl, ?_⟩
  have h0 : (clipStep startedCtx (XEv.announce 0)).vboxFormats = 0 := rfl
  have h := clipRun_inv evs _ h0 he
  have hc : (clipStep startedCtx (XEv.announce 0)).hostDataCalls = 0 := rfl
  rw [h.2, hc]

/-- Witness for the amended C1: after the empty announcement, a
conversion request from an X11 peer for UTF8_STRING, a host data
request and another empty announcement leave the host-data upcall
count at zero. -/
theorem claim_C1_amended_witness :
    (clipRun (clipStep startedCtx (XEv.announce 0))
        [XEv.selRequest aCLIPBOARD 4097 VStatus.VINF_SUCCESS [104],
         XEv.hostRequest 1 3, XEv.announce 0]).hostDataCalls = 0 := by
  have h := claim_C1_amended
      [XEv.selRequest aCLIPBOARD 4097 VStatus.VINF_SUCCESS [104],
       XEv.hostRequest 1 3, XEv.announce 0]
      (by
        intro e hmem m hm
        fin_cases hmem <;> simp_all)
  exact h.2.2

/-! ## Claim C9: headless mode -/

/-- C9: with a context constructed headless (fHaveX11 false), every
public bridge operation is a no-op returning success — start, stop and
announce-formats leave the state untouched — except
ClipRequestDataFromX11, which returns VERR_NO_DATA synchronously and
also leaves the state untouched; along any sequence of public
operations the state never changes, so in particular no X11 selection
is ever grabbed. -/
theorem claim_C9 (s : ClipCtx) (h : s.fHaveX11 = false) :
    (∀ g, ClipStartX11 s g = (s, .VINF_SUCCESS)) ∧
    ClipStopX11 s = (s, .VINF_SUCCESS) ∧
    (∀ m, ClipAnnounceFormatToX11 s m = s) ∧
    (∀ f r, ClipRequestDataFromX11 s f r = (s, .VERR_NO_DATA)) ∧
    (∀ ops, pubRun s ops = s) := by
  have hx : ¬s.fHaveX11 = true := by simp [h]
  refine ⟨?_, rfl, ?_, ?_, ?_⟩
  · intro g
    unfold ClipStartX11
    rw [if_pos hx]
  · intro m
    unfold ClipAnnounceFormatToX11
    rw [if_pos hx]
  · intro f r
    unfold ClipRequestDataFromX11
    rw [if_pos hx]
  · intro ops
    induction ops with
    | nil => rfl
    | cons op rest ih =>
      have hone : pubStep s op = s := by
        cases op <;>
          simp [pubStep, ClipStartX11, ClipStopX11, ClipAnnounceFormatToX11,
            ClipRequestDataFromX11, hx]
      show pubRun (pubStep s op) rest = s
      rw [hone]
      exact ih

/-- Witness for C9: a concrete headless context returns VERR_NO_DATA
for a data request and is untouched by a start, announce, request,
stop sequence. -/
theorem claim_C9_witness :
    ClipRequestDataFromX11 (ClipConstructX11 true) 1 8 =
      (ClipConstructX11 true, .VERR_NO_DATA) ∧
    pubRun (ClipConstructX11 true)
        [PubOp.start false, PubOp.announce 1, PubOp.request 1 9, PubOp.stop] =
      ClipConstructX11 true := by
  have h := claim_C9 (ClipConstructX11 true) rfl
  exact ⟨h.2.2.2.1 1 8, h.2.2.2.2 _⟩

/-- Witness for the amended C10: with fUpdateNeeded set, a concrete
valid TARGETS reply is discarded and a fresh TARGETS conversion is
issued. -/
theorem claim_C10_amended_witness :
    clipConvertX11Targets
        {startedCtx with
          fBusy := true,
          fUpdateNeeded := true,
          pendingConv := some PendingConv.targets}
        { atomType := XA_ATOM, value := some [4097], count := 1, format := 32 } =
      {startedCtx with
        fBusy := true,
        fUpdateNeeded := false,
        pendingConv := some PendingConv.targets} :=
  (claim_C10_amended
      {startedCtx with
        fBusy := true,
        fUpdateNeeded := true,
        pendingConv := some PendingConv.targets}
      { atomType := XA_ATOM, value := some [4097], count := 1, format := 32 }).1 rfl
